import Mathlib

/-!
Verification of the recommendation scoring engine and color-contrast
selection algorithm of the Wagara Recommender (src/streamlit_app.py).

Python floats are modeled as exact rationals (ℚ): every arithmetic
operation on the verified code paths is rational (+, *, /, comparisons),
so ℚ is a faithful model of the values computed, up to floating-point
rounding which none of the claims hinge on.

The only non-rational operation in the source, the power-law branch
`((c+0.055)/1.055)**2.4` of `rel_luminance`, is modeled as an explicit
function parameter `pw : ℚ → ℚ`. The source compares the channel value
AFTER dividing by 255 against the threshold `0.04045*255`, so for every
channel produced by `hex_to_rgb` (at most 255) the power-law branch is
unreachable; all theorems below hold for every `pw`, which documents
that no verified behavior depends on it.
-/

namespace Wagara

/-- Numeric value of one hexadecimal digit character, `none` if `c` is not
a hex digit. Models the per-character acceptance of Python `int(s, 16)`.
The code points are 48-57 for `0`-`9`, 97-102 for `a`-`f`, 65-70 for `A`-`F`. -/
def hexDigitVal (c : Char) : Option Nat :=
  let n := c.toNat
  if 48 ≤ n ∧ n ≤ 57 then some (n - 48)
  else if 97 ≤ n ∧ n ≤ 102 then some (n - 97 + 10)
  else if 65 ≤ n ∧ n ≤ 70 then some (n - 65 + 10)
  else none

/-- Accumulator loop for hexadecimal string-to-number conversion. -/
def hexAcc : Nat → List Char → Option Nat
  | acc, [] => some acc
  | acc, c :: cs =>
    match hexDigitVal c with
    | some d => hexAcc (16 * acc + d) cs
    | none => none

/-- Models Python `int(s, 16)` on the slices taken by `hex_to_rgb`:
the empty string or any non-hex-digit character raises `ValueError`,
modeled as `none`. (Python additionally tolerates surrounding whitespace,
a sign, and underscores between digits; those never occur in color
strings and are outside the spec's color domain.) -/
def pyIntHex (cs : List Char) : Option Nat :=
  match cs with
  | [] => none
  | _ => hexAcc 0 cs

/-- Characters of `h` with all leading `#` stripped: Python `h.lstrip('#')`. -/
def hexTail (h : String) : List Char :=
  h.data.dropWhile (· == '#')

/-- Model of `hex_to_rgb` (src/streamlit_app.py:177-178):
strip all leading `#` characters, then parse the character slices
`[0:2]`, `[2:4]`, `[4:6]` as hexadecimal numbers. Python slicing clamps
out-of-range slices, hence `take`/`drop`; a failed `int` conversion
raises, modeled as `none`. -/
def hex_to_rgb (h : String) : Option (Nat × Nat × Nat) :=
  match pyIntHex ((hexTail h).take 2), pyIntHex (((hexTail h).drop 2).take 2),
      pyIntHex (((hexTail h).drop 4).take 2) with
  | some r, some g, some b => some (r, g, b)
  | _, _, _ => none

/-- Model of the inner function `f` of `rel_luminance`
(src/streamlit_app.py:181): `c = c/255.0`, then the piecewise transform.
The source compares the ALREADY normalized `c` against `0.04045*255`,
which is faithful to the code as written; `pw` stands for the power-law
branch `((c+0.055)/1.055)**2.4`. -/
def gammaChannel (pw : ℚ → ℚ) (c0 : ℚ) : ℚ :=
  let c := c0 / 255
  if c ≤ 0.04045 * 255 then c / 12.92 else pw ((c + 0.055) / 1.055)

/-- Model of `rel_luminance` (src/streamlit_app.py:180-182) on a parsed
RGB triple. -/
def rel_luminance (pw : ℚ → ℚ) (rgb : Nat × Nat × Nat) : ℚ :=
  0.2126 * gammaChannel pw rgb.1 + 0.7152 * gammaChannel pw rgb.2.1
    + 0.0722 * gammaChannel pw rgb.2.2

/-- Model of `contrast` (src/streamlit_app.py:184-186). An unparsable
color raises in Python, modeled as `none`. -/
def contrast (pw : ℚ → ℚ) (aHex bHex : String) : Option ℚ :=
  match hex_to_rgb aHex, hex_to_rgb bHex with
  | some A, some B =>
    let L1 := rel_luminance pw A
    let L2 := rel_luminance pw B
    some ((max L1 L2 + 0.05) / (min L1 L2 + 0.05))
  | _, _ => none

/-! Basic bounds on hex parsing and luminance. -/

theorem hexDigitVal_le {c : Char} {d : Nat} (h : hexDigitVal c = some d) : d ≤ 15 := by
  simp only [hexDigitVal] at h
  split at h
  · rename_i h9
    cases h
    omega
  · split at h
    · rename_i hf
      cases h
      omega
    · split at h
      · rename_i hF
        cases h
        omega
      · cases h

theorem pyIntHex_le_255 {cs : List Char} {v : Nat} (hlen : cs.length ≤ 2)
    (h : pyIntHex cs = some v) : v ≤ 255 := by
  match cs, hlen with
  | [], _ => simp [pyIntHex] at h
  | [c], _ =>
    simp only [pyIntHex, hexAcc] at h
    cases hd : hexDigitVal c with
    | none => rw [hd] at h; cases h
    | some d =>
      rw [hd] at h
      simp only [hexAcc] at h
      cases h
      have := hexDigitVal_le hd
      omega
  | [c, c'], _ =>
    simp only [pyIntHex, hexAcc] at h
    cases hd : hexDigitVal c with
    | none => rw [hd] at h; cases h
    | some d =>
      rw [hd] at h
      cases hd' : hexDigitVal c' with
      | none => simp [hexAcc, hd'] at h
      | some d' =>
        simp only [hexAcc, hd'] at h
        cases h
        have := hexDigitVal_le hd
        have := hexDigitVal_le hd'
        omega
  | _ :: _ :: _ :: _, hlen' => simp at hlen'

theorem hex_to_rgb_le_255 {h : String} {r g b : Nat}
    (hp : hex_to_rgb h = some (r, g, b)) : r ≤ 255 ∧ g ≤ 255 ∧ b ≤ 255 := by
  unfold hex_to_rgb at hp
  cases h1 : pyIntHex ((hexTail h).take 2) with
  | none => rw [h1] at hp; cases hp
  | some v1 =>
    cases h2 : pyIntHex (((hexTail h).drop 2).take 2) with
    | none => rw [h1, h2] at hp; cases hp
    | some v2 =>
      cases h3 : pyIntHex (((hexTail h).drop 4).take 2) with
      | none => rw [h1, h2, h3] at hp; cases hp
      | some v3 =>
        rw [h1, h2, h3] at hp
        cases hp
        refine ⟨?_, ?_, ?_⟩
        · exact pyIntHex_le_255 (List.length_take_le 2 (hexTail h)) h1
        · exact pyIntHex_le_255 (List.length_take_le 2 ((hexTail h).drop 2)) h2
        · exact pyIntHex_le_255 (List.length_take_le 2 ((hexTail h).drop 4)) h3

/-- For every channel value at most 255 the guard of `gammaChannel` holds,
so the linear branch is taken, independently of the power-law branch. -/
theorem gammaChannel_eq_linear (pw : ℚ → ℚ) {c : ℚ} (h : c ≤ 255) :
    gammaChannel pw c = c / 255 / 12.92 := by
  have hc : c / 255 ≤ 0.04045 * 255 := by
    have h1 : c / 255 ≤ 1 := by
      rw [div_le_one (by norm_num)]
      exact h
    linarith
  simp only [gammaChannel]
  rw [if_pos hc]

theorem gammaChannel_bounds (pw : ℚ → ℚ) {c : ℚ} (h0 : 0 ≤ c) (h : c ≤ 255) :
    0 ≤ gammaChannel pw c ∧ gammaChannel pw c ≤ 1 / 12.92 := by
  rw [gammaChannel_eq_linear pw h]
  have h1 : c / 255 ≤ 1 := by
    rw [div_le_one (by norm_num)]
    exact h
  constructor
  · positivity
  · gcongr

theorem rel_luminance_bounds (pw : ℚ → ℚ) {r g b : Nat}
    (hr : r ≤ 255) (hg : g ≤ 255) (hb : b ≤ 255) :
    0 ≤ rel_luminance pw (r, g, b) ∧ rel_luminance pw (r, g, b) ≤ 25 / 323 := by
  have hr' := gammaChannel_bounds pw (c := (r : ℚ)) (by positivity) (by exact_mod_cast hr)
  have hg' := gammaChannel_bounds pw (c := (g : ℚ)) (by positivity) (by exact_mod_cast hg)
  have hb' := gammaChannel_bounds pw (c := (b : ℚ)) (by positivity) (by exact_mod_cast hb)
  simp only [rel_luminance]
  constructor
  · have := hr'.1; have := hg'.1; have := hb'.1
    nlinarith
  · have := hr'.2; have := hg'.2; have := hb'.2
    nlinarith

/-- Closed form of `rel_luminance` on any parseable channel triple: the
power-law branch is unreachable, so the luminance is the linear form. -/
theorem rel_luminance_eq (pw : ℚ → ℚ) {r g b : Nat}
    (hr : r ≤ 255) (hg : g ≤ 255) (hb : b ≤ 255) :
    rel_luminance pw (r, g, b)
      = 0.2126 * ((r : ℚ) / 255 / 12.92) + 0.7152 * ((g : ℚ) / 255 / 12.92)
        + 0.0722 * ((b : ℚ) / 255 / 12.92) := by
  simp only [rel_luminance]
  rw [gammaChannel_eq_linear pw (by exact_mod_cast hr),
    gammaChannel_eq_linear pw (by exact_mod_cast hg),
    gammaChannel_eq_linear pw (by exact_mod_cast hb)]

theorem contrast_eq_some (pw : ℚ → ℚ) {a b : String} {A B : Nat × Nat × Nat}
    (ha : hex_to_rgb a = some A) (hb : hex_to_rgb b = some B) :
    contrast pw a b
      = some ((max (rel_luminance pw A) (rel_luminance pw B) + 0.05)
          / (min (rel_luminance pw A) (rel_luminance pw B) + 0.05)) := by
  simp only [contrast, ha, hb]

theorem contrast_comm (pw : ℚ → ℚ) (a b : String) :
    contrast pw a b = contrast pw b a := by
  cases ha : hex_to_rgb a with
  | none =>
    cases hb : hex_to_rgb b with
    | none => simp only [contrast, ha, hb]
    | some B => simp only [contrast, ha, hb]
  | some A =>
    cases hb : hex_to_rgb b with
    | none => simp only [contrast, ha, hb]
    | some B =>
      simp only [contrast, ha, hb]
      rw [max_comm, min_comm]

theorem contrast_self (pw : ℚ → ℚ) {a : String} {A : Nat × Nat × Nat}
    (ha : hex_to_rgb a = some A) : contrast pw a a = some 1 := by
  rw [contrast_eq_some pw ha ha]
  obtain ⟨r, g, b⟩ := A
  obtain ⟨hr, hg, hb⟩ := hex_to_rgb_le_255 ha
  have h0 := (rel_luminance_bounds pw hr hg hb).1
  rw [max_self, min_self, div_self (by linarith)]

theorem contrast_bounds (pw : ℚ → ℚ) {a b : String} {A B : Nat × Nat × Nat}
    (ha : hex_to_rgb a = some A) (hb : hex_to_rgb b = some B) :
    ∃ r, contrast pw a b = some r ∧ 1 ≤ r ∧ r ≤ 21 := by
  rw [contrast_eq_some pw ha hb]
  obtain ⟨r1, g1, b1⟩ := A
  obtain ⟨r2, g2, b2⟩ := B
  obtain ⟨hr1, hg1, hb1⟩ := hex_to_rgb_le_255 ha
  obtain ⟨hr2, hg2, hb2⟩ := hex_to_rgb_le_255 hb
  obtain ⟨hL1lo, hL1hi⟩ := rel_luminance_bounds pw hr1 hg1 hb1
  obtain ⟨hL2lo, hL2hi⟩ := rel_luminance_bounds pw hr2 hg2 hb2
  set L1 := rel_luminance pw (r1, g1, b1)
  set L2 := rel_luminance pw (r2, g2, b2)
  have hlo : 0 ≤ min L1 L2 := le_min hL1lo hL2lo
  have hhi : max L1 L2 ≤ 25 / 323 := max_le hL1hi hL2hi
  have hmono : min L1 L2 ≤ max L1 L2 := min_le_max
  have hpos : (0 : ℚ) < min L1 L2 + 0.05 := by linarith
  refine ⟨_, rfl, ?_, ?_⟩
  · rw [le_div_iff₀ hpos]
    linarith
  · rw [div_le_iff₀ hpos]
    linarith

/-- C1, settled against the code (the source contradicts the spec here):
`rel_luminance` divides a channel by 255 and then compares the result
against `0.04045*255`, so the linear branch is always taken, whatever the
power-law branch `pw` computes, and `contrast "#000000" "#FFFFFF"` is
`823/323 ≈ 2.548` rather than the WCAG value `21.0` the spec requires. -/
theorem C1_contrast_black_white_ne_21 (pw : ℚ → ℚ) :
    contrast pw "#000000" "#FFFFFF" = some (823 / 323) ∧ ((823 : ℚ) / 323) < 21 ∧
      rel_luminance pw (255, 255, 255) = 25 / 323 := by
  have h0 : hex_to_rgb "#000000" = some (0, 0, 0) := by decide
  have h1 : hex_to_rgb "#FFFFFF" = some (255, 255, 255) := by decide
  have e0 : rel_luminance pw (0, 0, 0) = 0 := by
    rw [rel_luminance_eq pw (by norm_num) (by norm_num) (by norm_num)]
    norm_num
  have e1 : rel_luminance pw (255, 255, 255) = 25 / 323 := by
    rw [rel_luminance_eq pw (by norm_num) (by norm_num) (by norm_num)]
    norm_num
  refine ⟨?_, by norm_num, e1⟩
  rw [contrast_eq_some pw h0 h1, e0, e1]
  rw [max_eq_right (by norm_num : (0 : ℚ) ≤ 25 / 323),
    min_eq_left (by norm_num : (0 : ℚ) ≤ 25 / 323)]
  norm_num

/-- C8: `contrast` is symmetric, self-contrast is exactly 1, and every
defined contrast ratio lies in the interval [1, 21]. -/
theorem C8_contrast_symm_self_bounds (pw : ℚ → ℚ) (a b : String)
    (ha : hex_to_rgb a ≠ none) (hb : hex_to_rgb b ≠ none) :
    contrast pw a b = contrast pw b a ∧ contrast pw a a = some 1 ∧
      ∃ r, contrast pw a b = some r ∧ 1 ≤ r ∧ r ≤ 21 := by
  obtain ⟨A, hA⟩ := Option.ne_none_iff_exists'.mp ha
  obtain ⟨B, hB⟩ := Option.ne_none_iff_exists'.mp hb
  exact ⟨contrast_comm pw a b, contrast_self pw hA, contrast_bounds pw hA hB⟩

/-- Same-triple variant of self-contrast: two colors that parse to the
same RGB triple have contrast ratio exactly 1. -/
theorem contrast_same (pw : ℚ → ℚ) {a b : String} {A : Nat × Nat × Nat}
    (ha : hex_to_rgb a = some A) (hb : hex_to_rgb b = some A) :
    contrast pw a b = some 1 := by
  rw [contrast_eq_some pw ha hb]
  obtain ⟨r, g, b'⟩ := A
  obtain ⟨hr, hg, hb'⟩ := hex_to_rgb_le_255 ha
  have h0 := (rel_luminance_bounds pw hr hg hb').1
  rw [max_self, min_self, div_self (by linarith)]

/-- Witness for C8 at concrete colors. -/
theorem C8_witness :
    hex_to_rgb "#0F4C81" ≠ none ∧ hex_to_rgb "#FFFFFF" ≠ none ∧
      (contrast (fun _ => 0) "#0F4C81" "#FFFFFF" = contrast (fun _ => 0) "#FFFFFF" "#0F4C81" ∧
        contrast (fun _ => 0) "#0F4C81" "#0F4C81" = some 1 ∧
        ∃ r, contrast (fun _ => 0) "#0F4C81" "#FFFFFF" = some r ∧ 1 ≤ r ∧ r ≤ 21) :=
  ⟨by decide, by decide,
    C8_contrast_symm_self_bounds (fun _ => 0) "#0F4C81" "#FFFFFF" (by decide) (by decide)⟩

/-! The contrast picker (src/streamlit_app.py:188-198). -/

/-- Model of the tier table lookup with default
(src/streamlit_app.py:189): dict `.get(desired, (1.8, 3.5))`. -/
def targetRange (desired : String) : ℚ × ℚ :=
  if desired = "Low" then (1.1, 1.8)
  else if desired = "Medium" then (1.8, 3.5)
  else if desired = "High" then (3.5, 21.0)
  else (1.8, 3.5)

/-- The candidate-collection loop of `pick_contrasting_color`
(src/streamlit_app.py:190-194): skip `c == base` (string equality),
compute the contrast ratio (which can raise, modeled as `none`), keep
`(cr, c)` when the ratio lies in the inclusive target range. -/
def collectCands (pw : ℚ → ℚ) (base : String) (tgt : ℚ × ℚ) :
    List String → Option (List (ℚ × String))
  | [] => some []
  | c :: cs =>
    if c = base then collectCands pw base tgt cs
    else
      match contrast pw base c, collectCands pw base tgt cs with
      | some cr, some rest =>
        some (if tgt.1 ≤ cr ∧ cr ≤ tgt.2 then (cr, c) :: rest else rest)
      | _, _ => none

/-- Python `min(xs, key=key)`: the first element with minimal key
(`min` replaces the running minimum only on a strictly smaller key);
raises on an empty sequence, modeled as `none`. -/
def pyMin {α : Type*} (key : α → ℚ) : List α → Option α
  | [] => none
  | a :: l =>
    match pyMin key l with
    | none => some a
    | some m => some (if key m < key a then m else a)

/-- Sort and minimization key of `pick_contrasting_color`: the absolute
distance of a candidate's contrast ratio to the target-range midpoint,
Python `abs(x[0] - sum(target)/2)`. -/
def distKey (mid : ℚ) (x : ℚ × String) : ℚ :=
  |x.1 - mid|

/-- Model of `pick_contrasting_color` (src/streamlit_app.py:188-198).
The qualifying branch is Python `sorted(cand, key=...)[0][1]`: a stable
ascending sort by distance of the ratio to the range midpoint, then the
first element; `List.mergeSort` is a stable sort, hence computes the
same list as Python's stable `sorted`. The fallback branch is Python
`min(palette, key=...)`, whose key evaluates `contrast` and can raise. -/
def pick_contrasting_color (pw : ℚ → ℚ) (base : String) (palette : List String)
    (desired : String) : Option String :=
  let tgt := targetRange desired
  match collectCands pw base tgt palette with
  | none => none
  | some cand =>
    if cand = [] then
      let mid := (tgt.1 + tgt.2) / 2
      match palette.mapM (fun c => (contrast pw base c).map (fun cr => (cr, c))) with
      | none => none
      | some pairs => (pyMin (distKey mid) pairs).map (·.2)
    else
      let mid := (tgt.1 + tgt.2) / 2
      ((cand.mergeSort (fun x y => decide (distKey mid x ≤ distKey mid y))).head?).map (·.2)

/-- Contrast ratio of `c` against `base` as a plain rational (meaningful
whenever both colors parse). Spec-side shorthand for stating the picker
claims. -/
def ratioOf (pw : ℚ → ℚ) (base c : String) : ℚ :=
  (contrast pw base c).getD 0

/-- Spec-side qualification test of the picker: a candidate differs from
the base as a string and its ratio lies in the inclusive target range. -/
def inTier (pw : ℚ → ℚ) (base : String) (tgt : ℚ × ℚ) (c : String) : Bool :=
  decide (c ≠ base) && decide (tgt.1 ≤ ratioOf pw base c ∧ ratioOf pw base c ≤ tgt.2)

/-- Spec-side list of qualifying candidates, in palette order. -/
def qualifying (pw : ℚ → ℚ) (base : String) (tgt : ℚ × ℚ) (palette : List String) :
    List String :=
  palette.filter (inTier pw base tgt)

theorem collectCands_eq_qualifying (pw : ℚ → ℚ) (base : String) (tgt : ℚ × ℚ)
    (hbase : hex_to_rgb base ≠ none) :
    ∀ palette : List String, (∀ c ∈ palette, hex_to_rgb c ≠ none) →
      collectCands pw base tgt palette
        = some ((qualifying pw base tgt palette).map (fun c => (ratioOf pw base c, c)))
  | [], _ => by simp [collectCands, qualifying]
  | c :: cs, hval => by
    have ihyp := collectCands_eq_qualifying pw base tgt hbase cs
      (fun x hx => hval x (List.mem_cons_of_mem c hx))
    obtain ⟨B, hB⟩ := Option.ne_none_iff_exists'.mp hbase
    by_cases hc : c = base
    · simp only [collectCands, if_pos hc, ihyp, qualifying, List.filter_cons]
      have : inTier pw base tgt c = false := by
        simp [inTier, hc]
      rw [this]
      simp [qualifying]
    · obtain ⟨C, hC⟩ := Option.ne_none_iff_exists'.mp (hval c (List.mem_cons_self c cs))
      have hcr : contrast pw base c = some (ratioOf pw base c) := by
        rw [contrast_eq_some pw hB hC, ratioOf, contrast_eq_some pw hB hC, Option.getD_some]
      simp only [collectCands, if_neg hc, hcr, ihyp]
      by_cases hin : tgt.1 ≤ ratioOf pw base c ∧ ratioOf pw base c ≤ tgt.2
      · have : inTier pw base tgt c = true := by
          simp [inTier, hc, hin]
        simp only [qualifying, List.filter_cons, this, if_pos hin]
        simp [qualifying, List.map_cons]
      · have : inTier pw base tgt c = false := by
          simp only [inTier, Bool.and_eq_false_iff]
          right
          simpa using hin
        simp only [qualifying, List.filter_cons, this, if_neg hin]
        simp [qualifying]

theorem mapM_ratio_pairs (pw : ℚ → ℚ) (base : String)
    (hbase : hex_to_rgb base ≠ none) :
    ∀ palette : List String, (∀ c ∈ palette, hex_to_rgb c ≠ none) →
      palette.mapM (fun c => (contrast pw base c).map (fun cr => (cr, c)))
        = some (palette.map (fun c => (ratioOf pw base c, c)))
  | [], _ => by rfl
  | c :: cs, hval => by
    have ihyp := mapM_ratio_pairs pw base hbase cs
      (fun x hx => hval x (List.mem_cons_of_mem c hx))
    obtain ⟨B, hB⟩ := Option.ne_none_iff_exists'.mp hbase
    obtain ⟨C, hC⟩ := Option.ne_none_iff_exists'.mp (hval c (List.mem_cons_self c cs))
    have hcr : contrast pw base c = some (ratioOf pw base c) := by
      rw [contrast_eq_some pw hB hC, ratioOf, contrast_eq_some pw hB hC, Option.getD_some]
    rw [List.mapM_cons, hcr, ihyp]
    simp

theorem pyMin_map {α β : Type*} (f : α → β) (key : β → ℚ) :
    ∀ l : List α, pyMin key (l.map f) = (pyMin (fun a => key (f a)) l).map f
  | [] => by simp [pyMin]
  | a :: l => by
    simp only [List.map_cons, pyMin, pyMin_map f key l]
    cases pyMin (fun a => key (f a)) l with
    | none => simp
    | some m => simp [apply_ite f]

/-- The head of a stable ascending sort by `key` is the first element
with minimal key, i.e. exactly Python `min(xs, key=key)`. -/
theorem head?_mergeSort_eq_pyMin {α : Type*} (key : α → ℚ) (xs : List α) :
    (xs.mergeSort (fun a b => decide (key a ≤ key b))).head? = pyMin key xs := by
  have trans : ∀ (a b c : α), (decide (key a ≤ key b)) = true →
      (decide (key b ≤ key c)) = true → (decide (key a ≤ key c)) = true := by
    intro x y z hxy hyz
    simp only [decide_eq_true_eq] at hxy hyz ⊢
    exact le_trans hxy hyz
  have total : ∀ (a b : α), ((decide (key a ≤ key b)) || (decide (key b ≤ key a))) = true := by
    intro x y
    simp only [Bool.or_eq_true, decide_eq_true_eq]
    exact le_total (key x) (key y)
  induction xs with
  | nil => simp [pyMin]
  | cons a l ih =>
    obtain ⟨l₁, l₂, h1, h2, h3⟩ := List.mergeSort_cons trans total a l
    have hpl : pyMin key l = (l₁ ++ l₂).head? := by rw [← h2, ih]
    cases l₁ with
    | nil =>
      rw [List.nil_append] at h1 hpl
      cases l₂ with
      | nil =>
        rw [h1, List.head?_cons]
        simp [pyMin, hpl]
      | cons m t =>
        simp only [List.head?_cons] at hpl
        have hs := List.sorted_mergeSort trans total (a :: l)
        rw [h1] at hs
        have ham : (decide (key a ≤ key m)) = true :=
          List.rel_of_pairwise_cons hs (List.mem_cons_self m t)
        simp only [decide_eq_true_eq] at ham
        rw [h1, List.head?_cons]
        simp only [pyMin, hpl]
        rw [if_neg (by linarith)]
    | cons c t =>
      have hc : pyMin key l = some c := by
        rw [hpl]
        simp
      have hca : (!(decide (key a ≤ key c))) = true := h3 c (List.mem_cons_self c t)
      simp only [Bool.not_eq_eq_eq_not, Bool.not_true, decide_eq_false_iff_not, not_le] at hca
      rw [h1, List.cons_append, List.head?_cons]
      simp only [pyMin, hc]
      rw [if_pos hca]

theorem pyMin_mem {α : Type*} (key : α → ℚ) :
    ∀ {l : List α} {m : α}, pyMin key l = some m → m ∈ l
  | [], m, h => by simp [pyMin] at h
  | a :: l, m, h => by
    simp only [pyMin] at h
    cases hl : pyMin key l with
    | none =>
      rw [hl] at h
      cases h
      exact List.mem_cons_self a l
    | some m' =>
      rw [hl] at h
      cases h
      split
      · exact List.mem_cons_of_mem a (pyMin_mem key hl)
      · exact List.mem_cons_self a l

theorem pyMin_ne_none {α : Type*} (key : α → ℚ) {l : List α} (h : l ≠ []) :
    ∃ m, pyMin key l = some m := by
  cases l with
  | nil => exact absurd rfl h
  | cons a l =>
    cases hl : pyMin key l with
    | none => exact ⟨a, by simp only [pyMin, hl]⟩
    | some m' => exact ⟨if key m' < key a then m' else a, by simp only [pyMin, hl]⟩

theorem pyMin_eq_none {α : Type*} (key : α → ℚ) {l : List α}
    (h : pyMin key l = none) : l = [] := by
  cases l with
  | nil => rfl
  | cons a l =>
    simp only [pyMin] at h
    cases hl : pyMin key l with
    | none => rw [hl] at h; cases h
    | some m' => rw [hl] at h; cases h

theorem pyMin_le {α : Type*} (key : α → ℚ) :
    ∀ {l : List α} {m : α}, pyMin key l = some m → ∀ c ∈ l, key m ≤ key c
  | [], m, h => by simp [pyMin] at h
  | a :: l, m, h => by
    simp only [pyMin] at h
    cases hl : pyMin key l with
    | none =>
      rw [hl] at h
      cases h
      intro c hc
      have := pyMin_eq_none key hl
      subst this
      rw [List.mem_singleton] at hc
      subst hc
      exact le_refl _
    | some m' =>
      rw [hl] at h
      cases h
      intro c hc
      rcases List.mem_cons.mp hc with rfl | hc'
      · split
        · rename_i hlt
          exact le_of_lt hlt
        · exact le_refl _
      · split
        · exact pyMin_le key hl c hc'
        · rename_i hge
          rw [not_lt] at hge
          exact le_trans hge (pyMin_le key hl c hc')

theorem pyMin_pairs_snd (pw : ℚ → ℚ) (base : String) (mid : ℚ) (l : List String) :
    (pyMin (distKey mid) (l.map (fun c => (ratioOf pw base c, c)))).map (fun x => x.2)
      = pyMin (fun c => |ratioOf pw base c - mid|) l := by
  rw [pyMin_map (fun c => (ratioOf pw base c, c)) (distKey mid) l]
  have h1 : (fun a => distKey mid ((fun c => (ratioOf pw base c, c)) a))
      = (fun c => |ratioOf pw base c - mid|) := rfl
  rw [h1]
  cases pyMin (fun c => |ratioOf pw base c - mid|) l <;> simp

/-- Full characterization of `pick_contrasting_color` on parseable
inputs: it succeeds, returns a palette member, and the result is the
first-in-palette-order minimizer of the distance of the contrast ratio
to the target-range midpoint, taken over the qualifying candidates when
any exist and over the whole palette otherwise. -/
theorem pick_spec (pw : ℚ → ℚ) (base : String) (palette : List String) (desired : String)
    (hpal : palette ≠ [])
    (hbase : hex_to_rgb base ≠ none)
    (hval : ∀ c ∈ palette, hex_to_rgb c ≠ none) :
    ∃ r, pick_contrasting_color pw base palette desired = some r ∧ r ∈ palette ∧
      (qualifying pw base (targetRange desired) palette = [] →
        pyMin (fun c => |ratioOf pw base c
            - ((targetRange desired).1 + (targetRange desired).2) / 2|) palette = some r) ∧
      (qualifying pw base (targetRange desired) palette ≠ [] →
        pyMin (fun c => |ratioOf pw base c
            - ((targetRange desired).1 + (targetRange desired).2) / 2|)
          (qualifying pw base (targetRange desired) palette) = some r) := by
  have hcoll := collectCands_eq_qualifying pw base (targetRange desired) hbase palette hval
  by_cases hq : qualifying pw base (targetRange desired) palette = []
  · obtain ⟨m, hm⟩ := pyMin_ne_none
      (fun c => |ratioOf pw base c - ((targetRange desired).1 + (targetRange desired).2) / 2|)
      hpal
    refine ⟨m, ?_, pyMin_mem _ hm, fun _ => hm, fun hne => absurd hq hne⟩
    simp only [pick_contrasting_color, hcoll]
    rw [hq]
    simp only [List.map_nil]
    rw [if_pos trivial]
    rw [mapM_ratio_pairs pw base hbase palette hval]
    show (pyMin (distKey (((targetRange desired).1 + (targetRange desired).2) / 2))
        (palette.map (fun c => (ratioOf pw base c, c)))).map (fun x => x.2) = some m
    rw [pyMin_pairs_snd pw base _ palette]
    exact hm
  · obtain ⟨m, hm⟩ := pyMin_ne_none
      (fun c => |ratioOf pw base c - ((targetRange desired).1 + (targetRange desired).2) / 2|)
      hq
    have hmem : m ∈ palette := by
      have h' := pyMin_mem _ hm
      simp only [qualifying] at h'
      exact List.mem_of_mem_filter h'
    refine ⟨m, ?_, hmem, fun heq => absurd heq hq, fun _ => hm⟩
    simp only [pick_contrasting_color, hcoll]
    have hne : (qualifying pw base (targetRange desired) palette).map
        (fun c => (ratioOf pw base c, c)) ≠ [] := by
      simpa using hq
    rw [if_neg hne]
    rw [head?_mergeSort_eq_pyMin
      (distKey (((targetRange desired).1 + (targetRange desired).2) / 2))]
    rw [pyMin_pairs_snd pw base _ (qualifying pw base (targetRange desired) palette)]
    exact hm

/-- C4: the tier table maps Low, Medium, High to their ranges with any
unrecognized tier defaulting to the Medium range; on parseable inputs the
picker succeeds with a palette member; when qualifying candidates (colors
differing from the base as strings, ratio in the inclusive range) exist,
the result is the first-in-palette-order minimizer over them of the
distance to the range midpoint, otherwise the first-in-palette-order
minimizer over the whole palette (base included). -/
theorem C4_pick_contrasting_color_spec (pw : ℚ → ℚ) (base : String)
    (palette : List String) (desired : String)
    (hpal : palette ≠ []) (hbase : hex_to_rgb base ≠ none)
    (hval : ∀ c ∈ palette, hex_to_rgb c ≠ none) :
    targetRange "Low" = (1.1, 1.8) ∧ targetRange "Medium" = (1.8, 3.5) ∧
    targetRange "High" = (3.5, 21.0) ∧
    (desired ∉ (["Low", "Medium", "High"] : List String) → targetRange desired = (1.8, 3.5)) ∧
    (∃ r, pick_contrasting_color pw base palette desired = some r ∧ r ∈ palette ∧
      (qualifying pw base (targetRange desired) palette = [] →
        pyMin (fun c => |ratioOf pw base c
            - ((targetRange desired).1 + (targetRange desired).2) / 2|) palette = some r ∧
        ∀ c ∈ palette,
          |ratioOf pw base r - ((targetRange desired).1 + (targetRange desired).2) / 2|
            ≤ |ratioOf pw base c - ((targetRange desired).1 + (targetRange desired).2) / 2|) ∧
      (qualifying pw base (targetRange desired) palette ≠ [] →
        pyMin (fun c => |ratioOf pw base c
            - ((targetRange desired).1 + (targetRange desired).2) / 2|)
          (qualifying pw base (targetRange desired) palette) = some r ∧
        r ∈ qualifying pw base (targetRange desired) palette ∧
        ∀ c ∈ qualifying pw base (targetRange desired) palette,
          |ratioOf pw base r - ((targetRange desired).1 + (targetRange desired).2) / 2|
            ≤ |ratioOf pw base c - ((targetRange desired).1 + (targetRange desired).2) / 2|)) := by
  refine ⟨by simp [targetRange], by simp [targetRange], by simp [targetRange], ?_, ?_⟩
  · intro hmem
    simp only [List.mem_cons, List.mem_singleton, not_or] at hmem
    obtain ⟨h1, h2, h3⟩ := hmem
    simp [targetRange, h1, h2, h3]
  · obtain ⟨r, hr, hrmem, hfall, hqual⟩ := pick_spec pw base palette desired hpal hbase hval
    refine ⟨r, hr, hrmem, ?_, ?_⟩
    · intro hq
      exact ⟨hfall hq, pyMin_le _ (hfall hq)⟩
    · intro hq
      exact ⟨hqual hq, pyMin_mem _ (hqual hq), pyMin_le _ (hqual hq)⟩

/-- Witness for C4 at the §8 scenario palette and tier High. -/
theorem C4_witness :
    (["#0F4C81", "#E6EDF7", "#F2C75C"] : List String) ≠ [] ∧
    hex_to_rgb "#0F4C81" ≠ none ∧
    (∀ c ∈ (["#0F4C81", "#E6EDF7", "#F2C75C"] : List String), hex_to_rgb c ≠ none) ∧
    (targetRange "Low" = (1.1, 1.8) ∧ targetRange "Medium" = (1.8, 3.5) ∧
    targetRange "High" = (3.5, 21.0) ∧
    ("High" ∉ (["Low", "Medium", "High"] : List String) → targetRange "High" = (1.8, 3.5)) ∧
    (∃ r, pick_contrasting_color (fun _ => 0) "#0F4C81" ["#0F4C81", "#E6EDF7", "#F2C75C"]
        "High" = some r ∧
      r ∈ (["#0F4C81", "#E6EDF7", "#F2C75C"] : List String) ∧
      (qualifying (fun _ => 0) "#0F4C81" (targetRange "High")
          ["#0F4C81", "#E6EDF7", "#F2C75C"] = [] →
        pyMin (fun c => |ratioOf (fun _ => 0) "#0F4C81" c
            - ((targetRange "High").1 + (targetRange "High").2) / 2|)
          ["#0F4C81", "#E6EDF7", "#F2C75C"] = some r ∧
        ∀ c ∈ (["#0F4C81", "#E6EDF7", "#F2C75C"] : List String),
          |ratioOf (fun _ => 0) "#0F4C81" r
              - ((targetRange "High").1 + (targetRange "High").2) / 2|
            ≤ |ratioOf (fun _ => 0) "#0F4C81" c
              - ((targetRange "High").1 + (targetRange "High").2) / 2|) ∧
      (qualifying (fun _ => 0) "#0F4C81" (targetRange "High")
          ["#0F4C81", "#E6EDF7", "#F2C75C"] ≠ [] →
        pyMin (fun c => |ratioOf (fun _ => 0) "#0F4C81" c
            - ((targetRange "High").1 + (targetRange "High").2) / 2|)
          (qualifying (fun _ => 0) "#0F4C81" (targetRange "High")
            ["#0F4C81", "#E6EDF7", "#F2C75C"]) = some r ∧
        r ∈ qualifying (fun _ => 0) "#0F4C81" (targetRange "High")
            ["#0F4C81", "#E6EDF7", "#F2C75C"] ∧
        ∀ c ∈ qualifying (fun _ => 0) "#0F4C81" (targetRange "High")
            ["#0F4C81", "#E6EDF7", "#F2C75C"],
          |ratioOf (fun _ => 0) "#0F4C81" r
              - ((targetRange "High").1 + (targetRange "High").2) / 2|
            ≤ |ratioOf (fun _ => 0) "#0F4C81" c
              - ((targetRange "High").1 + (targetRange "High").2) / 2|))) :=
  ⟨by decide, by decide, by decide,
    C4_pick_contrasting_color_spec (fun _ => 0) "#0F4C81"
      ["#0F4C81", "#E6EDF7", "#F2C75C"] "High" (by decide) (by decide) (by decide)⟩

/-- C10: the picker excludes the base by case-sensitive string equality
only; two spellings of the same color parse identically, have contrast
ratio exactly 1, and a case-variant of the base is kept as a candidate
and can be returned (here by the fallback, since ratio 1 qualifies for no
tier range). -/
theorem C10_case_sensitive_identity (pw : ℚ → ℚ) :
    (∀ a b : String, hex_to_rgb a ≠ none → hex_to_rgb a = hex_to_rgb b →
      contrast pw a b = some 1) ∧
    ("#ffffff" : String) ≠ "#FFFFFF" ∧
    hex_to_rgb "#ffffff" = hex_to_rgb "#FFFFFF" ∧
    pick_contrasting_color pw "#FFFFFF" ["#ffffff"] "Low" = some "#ffffff" := by
  have hff : hex_to_rgb "#ffffff" = some (255, 255, 255) := by decide
  have hFF : hex_to_rgb "#FFFFFF" = some (255, 255, 255) := by decide
  refine ⟨?_, by decide, by rw [hff, hFF], ?_⟩
  · intro a b ha heq
    obtain ⟨A, hA⟩ := Option.ne_none_iff_exists'.mp ha
    have hB : hex_to_rgb b = some A := by rw [← heq, hA]
    exact contrast_same pw hA hB
  · have hC : contrast pw "#FFFFFF" "#ffffff" = some 1 := contrast_same pw hFF hff
    have hratio : ratioOf pw "#FFFFFF" "#ffffff" = 1 := by
      rw [ratioOf, hC]
      rfl
    have htgt : targetRange "Low" = (1.1, 1.8) := by simp [targetRange]
    have hit : inTier pw "#FFFFFF" (targetRange "Low") "#ffffff" = false := by
      simp only [inTier, hratio, htgt, Bool.and_eq_false_iff]
      right
      rw [decide_eq_false_iff_not]
      norm_num
    have hQ : qualifying pw "#FFFFFF" (targetRange "Low") ["#ffffff"] = [] := by
      simp [qualifying, hit]
    obtain ⟨r, hr, hrmem, hfall, _⟩ := pick_spec pw "#FFFFFF" ["#ffffff"] "Low"
      (by simp) (by rw [hFF]; simp) (by intro c hc; rw [List.mem_singleton] at hc; subst hc; rw [hff]; simp)
    have hpm := hfall hQ
    simp only [pyMin] at hpm
    cases hpm
    exact hr

/-- Spec-side predicate: a color string in the well-formed 6-digit
`#RRGGBB` hex form (a `#` followed by exactly six hex digits). -/
def isHexColor6 (s : String) : Bool :=
  match s.data with
  | c :: cs => c == '#' && cs.length == 6 && cs.all (fun x => (hexDigitVal x).isSome)
  | [] => false

theorem hexAcc_isSome :
    ∀ (cs : List Char) (acc : Nat), (∀ c ∈ cs, (hexDigitVal c).isSome) →
      ∃ v, hexAcc acc cs = some v
  | [], acc, _ => ⟨acc, rfl⟩
  | c :: cs, acc, h => by
    obtain ⟨d, hd⟩ := Option.isSome_iff_exists.mp (h c (List.mem_cons_self c cs))
    simp only [hexAcc, hd]
    exact hexAcc_isSome cs (16 * acc + d) (fun x hx => h x (List.mem_cons_of_mem c hx))

theorem pyIntHex_isSome {cs : List Char} (hne : cs ≠ [])
    (h : ∀ c ∈ cs, (hexDigitVal c).isSome) : ∃ v, pyIntHex cs = some v := by
  cases cs with
  | nil => exact absurd rfl hne
  | cons c cs => exact hexAcc_isSome (c :: cs) 0 h

theorem hex6_parses {s : String} (h : isHexColor6 s = true) :
    ∃ rgb, hex_to_rgb s = some rgb := by
  unfold isHexColor6 at h
  cases hd : s.data with
  | nil => rw [hd] at h; cases h
  | cons c cs =>
    rw [hd] at h
    simp only [Bool.and_eq_true, beq_iff_eq, List.all_eq_true] at h
    obtain ⟨⟨hc, hlen⟩, hall⟩ := h
    subst hc
    have htail : hexTail s = cs := by
      rw [hexTail, hd, List.dropWhile_cons]
      rw [if_pos (by decide)]
      cases cs with
      | nil => simp at hlen
      | cons c₁ rest =>
        rw [List.dropWhile_cons]
        have h₁ : (hexDigitVal c₁).isSome := hall c₁ (List.mem_cons_self c₁ rest)
        have hne : (c₁ == '#') = false := by
          rw [beq_eq_false_iff_ne]
          intro he
          subst he
          exact absurd h₁ (by decide)
        rw [hne]
        simp
    have hlen2a : (cs.take 2).length = 2 := by
      rw [List.length_take, hlen]
      omega
    have hlen2b : ((cs.drop 2).take 2).length = 2 := by
      rw [List.length_take, List.length_drop, hlen]
      omega
    have hlen2c : ((cs.drop 4).take 2).length = 2 := by
      rw [List.length_take, List.length_drop, hlen]
      omega
    obtain ⟨v1, hv1⟩ := pyIntHex_isSome
      (by intro h'; rw [h'] at hlen2a; cases hlen2a)
      (fun x hx => hall x (List.take_subset 2 cs hx))
    obtain ⟨v2, hv2⟩ := pyIntHex_isSome
      (by intro h'; rw [h'] at hlen2b; cases hlen2b)
      (fun x hx => hall x (List.drop_subset 2 cs (List.take_subset 2 (cs.drop 2) hx)))
    obtain ⟨v3, hv3⟩ := pyIntHex_isSome
      (by intro h'; rw [h'] at hlen2c; cases hlen2c)
      (fun x hx => hall x (List.drop_subset 4 cs (List.take_subset 2 (cs.drop 4) hx)))
    refine ⟨(v1, v2, v3), ?_⟩
    unfold hex_to_rgb
    rw [htail, hv1, hv2, hv3]

/-- C9 counterexample: `"#abc"` is a well-formed 3-digit `#RGB` color,
yet `hex_to_rgb` fails on it (the `[4:6]` slice is empty and
Python `int("", 16)` raises `ValueError`), so `contrast` fails too,
contradicting the claim that short-form colors never fail. -/
theorem C9_counterexample_short_form :
    hex_to_rgb "#abc" = none ∧ contrast (fun _ => 0) "#abc" "#FFFFFF" = none := by
  decide

/-- C9 amended: colors in the 6-digit `#RRGGBB` form (but not the
3-digit `#RGB` short form) are guaranteed: `hex_to_rgb` succeeds on them
and `contrast` returns a value in [1, 21] without failing. -/
theorem C9_amended_hex6_no_failure (pw : ℚ → ℚ) (a b : String)
    (ha : isHexColor6 a = true) (hb : isHexColor6 b = true) :
    hex_to_rgb a ≠ none ∧ hex_to_rgb b ≠ none ∧
      ∃ r, contrast pw a b = some r ∧ 1 ≤ r ∧ r ≤ 21 := by
  obtain ⟨A, hA⟩ := hex6_parses ha
  obtain ⟨B, hB⟩ := hex6_parses hb
  exact ⟨by rw [hA]; simp, by rw [hB]; simp, contrast_bounds pw hA hB⟩

/-- Witness for the amended C9 at concrete 6-digit colors. -/
theorem C9_amended_witness :
    isHexColor6 "#0F4C81" = true ∧ isHexColor6 "#F2C75C" = true ∧
      (hex_to_rgb "#0F4C81" ≠ none ∧ hex_to_rgb "#F2C75C" ≠ none ∧
        ∃ r, contrast (fun _ => 0) "#0F4C81" "#F2C75C" = some r ∧ 1 ≤ r ∧ r ≤ 21) :=
  ⟨by decide, by decide,
    C9_amended_hex6_no_failure (fun _ => 0) "#0F4C81" "#F2C75C" (by decide) (by decide)⟩

/-! Scoring and reasons (src/streamlit_app.py:203-226). -/

/-- Model of the `Pattern` dataclass (src/streamlit_app.py:108-118). -/
structure Pattern where
  name : String
  motifs : List String
  seasons : List String
  formality : List String
  mood : List String
  genders : List String
  contrast_pref : List String
  color_palettes : List (List String)
  notes : String
deriving DecidableEq

/-- Model of the preference dict the UI passes to the engine: six
single-valued string fields. A missing key (Python `None`) is folded
into the empty string, which is falsy exactly like `None` in the
source's truthiness guards. -/
structure Prefs where
  gender : String
  mood : String
  season : String
  tpo : String
  motif : String
  contrast : String

/-- Gender condition of `score_pattern` (src/streamlit_app.py:207):
truthy preference and membership, with the `"Unisex"` wildcard on the
entry. -/
def gender_match (p : Pattern) (pr : Prefs) : Bool :=
  pr.gender != "" && (p.genders.contains pr.gender || p.genders.contains "Unisex")

/-- Mood condition of `score_pattern` (src/streamlit_app.py:208). -/
def mood_match (p : Pattern) (pr : Prefs) : Bool :=
  pr.mood != "" && p.mood.contains pr.mood

/-- Season condition of `score_pattern` (src/streamlit_app.py:209), with
the `"All year"` wildcard on the entry. -/
def season_match (p : Pattern) (pr : Prefs) : Bool :=
  pr.season != "" && (p.seasons.contains pr.season || p.seasons.contains "All year")

/-- Formality condition of `score_pattern` (src/streamlit_app.py:210). -/
def tpo_match (p : Pattern) (pr : Prefs) : Bool :=
  pr.tpo != "" && p.formality.contains pr.tpo

/-- Motif condition of `score_pattern` (src/streamlit_app.py:211). -/
def motif_match (p : Pattern) (pr : Prefs) : Bool :=
  pr.motif != "" && p.motifs.contains pr.motif

/-- Contrast condition of `score_pattern` (src/streamlit_app.py:212). -/
def contrast_match (p : Pattern) (pr : Prefs) : Bool :=
  pr.contrast != "" && p.contrast_pref.contains pr.contrast

/-- Model of the `WEIGHTS` dict (src/streamlit_app.py:203). -/
def WEIGHTS (k : String) : ℚ :=
  if k = "gender" then 1.0
  else if k = "mood" then 1.1
  else if k = "season" then 0.9
  else if k = "formality" then 1.0
  else if k = "motif" then 0.8
  else if k = "contrast" then 0.6
  else 0

/-- Model of `score_pattern` (src/streamlit_app.py:205-213): starts at
0.0 and adds each weight when its condition holds. -/
def score_pattern (p : Pattern) (pr : Prefs) : ℚ :=
  (if gender_match p pr then WEIGHTS "gender" else 0)
    + (if mood_match p pr then WEIGHTS "mood" else 0)
    + (if season_match p pr then WEIGHTS "season" else 0)
    + (if tpo_match p pr then WEIGHTS "formality" else 0)
    + (if motif_match p pr then WEIGHTS "motif" else 0)
    + (if contrast_match p pr then WEIGHTS "contrast" else 0)

/-- Model of `build_reasons` (src/streamlit_app.py:215-226). Note the
source checks truthiness of the preference only for the season line;
the mood, formality, motif and contrast lines test membership directly. -/
def build_reasons (p : Pattern) (pr : Prefs) : List String :=
  let r1 : List String :=
    if p.mood.contains pr.mood then ["Matches mood '" ++ pr.mood ++ "'"] else []
  let r2 : List String :=
    if pr.season != "" && (p.seasons.contains pr.season || p.seasons.contains "All year")
      then ["Works for '" ++ pr.season ++ "'"] else []
  let r3 : List String :=
    if p.formality.contains pr.tpo then ["Appropriate for '" ++ pr.tpo ++ "'"] else []
  let r4 : List String :=
    if p.motifs.contains pr.motif then ["Motif '" ++ pr.motif ++ "' included"] else []
  let r5 : List String :=
    if p.contrast_pref.contains pr.contrast
      then ["Good for contrast '" ++ pr.contrast ++ "'"] else []
  let rs := r1 ++ r2 ++ r3 ++ r4 ++ r5
  if rs = [] then ["Versatile and easy to coordinate"] else rs

/-- The §8 scenario catalog entry. -/
def scenarioEntry : Pattern :=
  { name := "scenario", motifs := ["Geometric"], seasons := ["All year"],
    formality := ["Semi-formal"], mood := ["Calm"], genders := ["Unisex"],
    contrast_pref := ["Low", "Medium"], color_palettes := [], notes := "" }

/-- The §8 scenario preference set. -/
def scenarioPrefs : Prefs :=
  { gender := "Male", mood := "Calm", season := "Spring", tpo := "Semi-formal",
    motif := "Geometric", contrast := "Medium" }

theorem gender_match_iff (p : Pattern) (pr : Prefs) :
    gender_match p pr = true
      ↔ (pr.gender ≠ "" ∧ (pr.gender ∈ p.genders ∨ "Unisex" ∈ p.genders)) := by
  simp [gender_match]

theorem mood_match_iff (p : Pattern) (pr : Prefs) :
    mood_match p pr = true ↔ (pr.mood ≠ "" ∧ pr.mood ∈ p.mood) := by
  simp [mood_match]

theorem season_match_iff (p : Pattern) (pr : Prefs) :
    season_match p pr = true
      ↔ (pr.season ≠ "" ∧ (pr.season ∈ p.seasons ∨ "All year" ∈ p.seasons)) := by
  simp [season_match]

theorem tpo_match_iff (p : Pattern) (pr : Prefs) :
    tpo_match p pr = true ↔ (pr.tpo ≠ "" ∧ pr.tpo ∈ p.formality) := by
  simp [tpo_match]

theorem motif_match_iff (p : Pattern) (pr : Prefs) :
    motif_match p pr = true ↔ (pr.motif ≠ "" ∧ pr.motif ∈ p.motifs) := by
  simp [motif_match]

theorem contrast_match_iff (p : Pattern) (pr : Prefs) :
    contrast_match p pr = true ↔ (pr.contrast ≠ "" ∧ pr.contrast ∈ p.contrast_pref) := by
  simp [contrast_match]

theorem ite_weight_bounds {b : Bool} {w : ℚ} (hw : 0 ≤ w) :
    0 ≤ (if b then w else 0) ∧ (if b then w else 0) ≤ w := by
  cases b <;> simp [hw]

theorem ite_weight_le {bp bq : Bool} {w : ℚ} (hw : 0 ≤ w) (h : bp = true → bq = true) :
    (if bp then w else 0) ≤ (if bq then w else 0) := by
  cases bp <;> cases bq <;> simp_all

theorem score_pattern_eq (p : Pattern) (pr : Prefs) :
    score_pattern p pr =
      (if pr.gender ≠ "" ∧ (pr.gender ∈ p.genders ∨ "Unisex" ∈ p.genders)
        then (1.0 : ℚ) else 0)
      + (if pr.mood ≠ "" ∧ pr.mood ∈ p.mood then (1.1 : ℚ) else 0)
      + (if pr.season ≠ "" ∧ (pr.season ∈ p.seasons ∨ "All year" ∈ p.seasons)
        then (0.9 : ℚ) else 0)
      + (if pr.tpo ≠ "" ∧ pr.tpo ∈ p.formality then (1.0 : ℚ) else 0)
      + (if pr.motif ≠ "" ∧ pr.motif ∈ p.motifs then (0.8 : ℚ) else 0)
      + (if pr.contrast ≠ "" ∧ pr.contrast ∈ p.contrast_pref then (0.6 : ℚ) else 0) := by
  rw [score_pattern]
  rw [if_congr (gender_match_iff p pr) rfl rfl, if_congr (mood_match_iff p pr) rfl rfl,
    if_congr (season_match_iff p pr) rfl rfl, if_congr (tpo_match_iff p pr) rfl rfl,
    if_congr (motif_match_iff p pr) rfl rfl, if_congr (contrast_match_iff p pr) rfl rfl]
  simp [WEIGHTS] <;> norm_num

/-- C2: the score is the sum of the six all-or-nothing weighted terms
(gender 1.0 with Unisex wildcard, mood 1.1, season 0.9 with the All-year
wildcard, formality 1.0, motif 0.8, contrast 0.6); it lies in [0, 5.4];
it cannot decrease when the set of matching conditions grows; and the §8
scenario entry scores exactly 5.4 against the §8 preferences. -/
theorem C2_score_weights_bounds_monotone_scenario (p q : Pattern) (pr : Prefs)
    (hmono : (gender_match p pr = true → gender_match q pr = true) ∧
      (mood_match p pr = true → mood_match q pr = true) ∧
      (season_match p pr = true → season_match q pr = true) ∧
      (tpo_match p pr = true → tpo_match q pr = true) ∧
      (motif_match p pr = true → motif_match q pr = true) ∧
      (contrast_match p pr = true → contrast_match q pr = true)) :
    (score_pattern p pr =
      (if pr.gender ≠ "" ∧ (pr.gender ∈ p.genders ∨ "Unisex" ∈ p.genders)
        then (1.0 : ℚ) else 0)
      + (if pr.mood ≠ "" ∧ pr.mood ∈ p.mood then (1.1 : ℚ) else 0)
      + (if pr.season ≠ "" ∧ (pr.season ∈ p.seasons ∨ "All year" ∈ p.seasons)
        then (0.9 : ℚ) else 0)
      + (if pr.tpo ≠ "" ∧ pr.tpo ∈ p.formality then (1.0 : ℚ) else 0)
      + (if pr.motif ≠ "" ∧ pr.motif ∈ p.motifs then (0.8 : ℚ) else 0)
      + (if pr.contrast ≠ "" ∧ pr.contrast ∈ p.contrast_pref then (0.6 : ℚ) else 0)) ∧
    0 ≤ score_pattern p pr ∧ score_pattern p pr ≤ 5.4 ∧
    score_pattern p pr ≤ score_pattern q pr ∧
    score_pattern scenarioEntry scenarioPrefs = 5.4 := by
  obtain ⟨h1, h2, h3, h4, h5, h6⟩ := hmono
  refine ⟨score_pattern_eq p pr, ?_, ?_, ?_, ?_⟩
  · rw [score_pattern]
    have g1 := (ite_weight_bounds (b := gender_match p pr)
      (w := WEIGHTS "gender") (by simp [WEIGHTS] <;> norm_num)).1
    have g2 := (ite_weight_bounds (b := mood_match p pr)
      (w := WEIGHTS "mood") (by simp [WEIGHTS] <;> norm_num)).1
    have g3 := (ite_weight_bounds (b := season_match p pr)
      (w := WEIGHTS "season") (by simp [WEIGHTS] <;> norm_num)).1
    have g4 := (ite_weight_bounds (b := tpo_match p pr)
      (w := WEIGHTS "formality") (by simp [WEIGHTS] <;> norm_num)).1
    have g5 := (ite_weight_bounds (b := motif_match p pr)
      (w := WEIGHTS "motif") (by simp [WEIGHTS] <;> norm_num)).1
    have g6 := (ite_weight_bounds (b := contrast_match p pr)
      (w := WEIGHTS "contrast") (by simp [WEIGHTS] <;> norm_num)).1
    linarith
  · rw [score_pattern]
    have g1 := (ite_weight_bounds (b := gender_match p pr)
      (w := WEIGHTS "gender") (by simp [WEIGHTS] <;> norm_num)).2
    have g2 := (ite_weight_bounds (b := mood_match p pr)
      (w := WEIGHTS "mood") (by simp [WEIGHTS] <;> norm_num)).2
    have g3 := (ite_weight_bounds (b := season_match p pr)
      (w := WEIGHTS "season") (by simp [WEIGHTS] <;> norm_num)).2
    have g4 := (ite_weight_bounds (b := tpo_match p pr)
      (w := WEIGHTS "formality") (by simp [WEIGHTS] <;> norm_num)).2
    have g5 := (ite_weight_bounds (b := motif_match p pr)
      (w := WEIGHTS "motif") (by simp [WEIGHTS] <;> norm_num)).2
    have g6 := (ite_weight_bounds (b := contrast_match p pr)
      (w := WEIGHTS "contrast") (by simp [WEIGHTS] <;> norm_num)).2
    have hW : WEIGHTS "gender" + WEIGHTS "mood" + WEIGHTS "season" + WEIGHTS "formality"
        + WEIGHTS "motif" + WEIGHTS "contrast" = 5.4 := by
      simp [WEIGHTS] <;> norm_num
    linarith
  · rw [score_pattern, score_pattern]
    have m1 := ite_weight_le (w := WEIGHTS "gender") (by simp [WEIGHTS] <;> norm_num) h1
    have m2 := ite_weight_le (w := WEIGHTS "mood") (by simp [WEIGHTS] <;> norm_num) h2
    have m3 := ite_weight_le (w := WEIGHTS "season") (by simp [WEIGHTS] <;> norm_num) h3
    have m4 := ite_weight_le (w := WEIGHTS "formality") (by simp [WEIGHTS] <;> norm_num) h4
    have m5 := ite_weight_le (w := WEIGHTS "motif") (by simp [WEIGHTS] <;> norm_num) h5
    have m6 := ite_weight_le (w := WEIGHTS "contrast") (by simp [WEIGHTS] <;> norm_num) h6
    linarith
  · have e1 : gender_match scenarioEntry scenarioPrefs = true := by decide
    have e2 : mood_match scenarioEntry scenarioPrefs = true := by decide
    have e3 : season_match scenarioEntry scenarioPrefs = true := by decide
    have e4 : tpo_match scenarioEntry scenarioPrefs = true := by decide
    have e5 : motif_match scenarioEntry scenarioPrefs = true := by decide
    have e6 : contrast_match scenarioEntry scenarioPrefs = true := by decide
    rw [score_pattern, e1, e2, e3, e4, e5, e6]
    simp [WEIGHTS] <;> norm_num

/-- Witness for C2 at the §8 scenario. -/
theorem C2_witness :
    0 ≤ score_pattern scenarioEntry scenarioPrefs ∧
      score_pattern scenarioEntry scenarioPrefs ≤ 5.4 ∧
      score_pattern scenarioEntry scenarioPrefs = 5.4 := by
  obtain ⟨-, hb1, hb2, -, hs⟩ :=
    C2_score_weights_bounds_monotone_scenario scenarioEntry scenarioEntry scenarioPrefs
      ⟨fun h => h, fun h => h, fun h => h, fun h => h, fun h => h, fun h => h⟩
  exact ⟨hb1, hb2, hs⟩

/-- Spec-side form of the reason list: one fixed-template string per
SCORER condition, in the fixed order mood, season, formality, motif,
contrast, with the single versatility fallback when none match and
gender never surfaced. -/
def reasonsSpec (p : Pattern) (pr : Prefs) : List String :=
  let rs :=
    (if mood_match p pr then ["Matches mood '" ++ pr.mood ++ "'"] else [])
    ++ (if season_match p pr then ["Works for '" ++ pr.season ++ "'"] else [])
    ++ (if tpo_match p pr then ["Appropriate for '" ++ pr.tpo ++ "'"] else [])
    ++ (if motif_match p pr then ["Motif '" ++ pr.motif ++ "' included"] else [])
    ++ (if contrast_match p pr then ["Good for contrast '" ++ pr.contrast ++ "'"] else [])
  if rs = [] then ["Versatile and easy to coordinate"] else rs

/-- C7: for validated preferences (non-empty fields, as the UI layer
guarantees), `build_reasons` emits a reason exactly when the Scorer's
corresponding condition matches, in the fixed order mood, season,
formality, motif, contrast; the result never mentions gender (it is
invariant under changing the gender preference); it is never empty; and
when no condition matches it is exactly the single versatility
fallback. -/
theorem C7_build_reasons_mirrors_scorer (p : Pattern) (pr : Prefs)
    (hmood : pr.mood ≠ "") (htpo : pr.tpo ≠ "")
    (hmotif : pr.motif ≠ "") (hcontrast : pr.contrast ≠ "") :
    build_reasons p pr = reasonsSpec p pr ∧
    build_reasons p pr ≠ [] ∧
    (∀ g', build_reasons p { pr with gender := g' } = build_reasons p pr) ∧
    ((mood_match p pr = false ∧ season_match p pr = false ∧ tpo_match p pr = false ∧
        motif_match p pr = false ∧ contrast_match p pr = false) →
      build_reasons p pr = ["Versatile and easy to coordinate"]) := by
  have e1 : p.mood.contains pr.mood = mood_match p pr := by
    simp [mood_match, hmood]
  have e3 : p.formality.contains pr.tpo = tpo_match p pr := by
    simp [tpo_match, htpo]
  have e4 : p.motifs.contains pr.motif = motif_match p pr := by
    simp [motif_match, hmotif]
  have e5 : p.contrast_pref.contains pr.contrast = contrast_match p pr := by
    simp [contrast_match, hcontrast]
  have hmain : build_reasons p pr = reasonsSpec p pr := by
    simp only [build_reasons, reasonsSpec, e1, e3, e4, e5, season_match]
  have hne : ∀ (l : List String) (v : String), (if l = [] then [v] else l) ≠ [] := by
    intro l v
    split
    · simp
    · assumption
  refine ⟨hmain, ?_, fun g' => rfl, ?_⟩
  · simp only [build_reasons]
    exact hne _ _
  · intro ⟨hm1, hm2, hm3, hm4, hm5⟩
    rw [hmain]
    simp only [reasonsSpec, hm1, hm2, hm3, hm4, hm5]
    simp

/-- Witness for C7 at the §8 scenario. -/
theorem C7_witness :
    build_reasons scenarioEntry scenarioPrefs = reasonsSpec scenarioEntry scenarioPrefs ∧
      build_reasons scenarioEntry scenarioPrefs ≠ [] := by
  obtain ⟨ha, hb, -, -⟩ := C7_build_reasons_mirrors_scorer scenarioEntry scenarioPrefs
    (by decide) (by decide) (by decide) (by decide)
  exact ⟨ha, hb⟩

/-! The combo builder (src/streamlit_app.py:228-240). -/

/-- Model of the color-combo result dict of `pick_combo`. -/
structure Combo where
  kimono_base : String
  kimono_accent1 : String
  kimono_accent2 : String
  obi : String
  obijime : String
  obiage : String

/-- Palette selection of `pick_combo` (src/streamlit_app.py:229-232):
the first palette, or the fixed default triple when the entry has no
palettes at all; when more than one palette exists the index is Python
`hash(p.name + str(prefs)) % len(palettes)`, modeled by the arbitrary
function `pyHash` (Python's string hash is process-seeded, so only its
determinism within one run matters; `Int.emod` matches Python `%` on a
positive modulus). -/
def selectPalette (pyHash : String → Prefs → Int) (p : Pattern) (pr : Prefs) : List String :=
  let palette0 :=
    match p.color_palettes with
    | [] => ["#222222", "#dddddd", "#aaaaaa"]
    | q :: _ => q
  if p.color_palettes.length > 1 then
    p.color_palettes.getD ((pyHash p.name pr).emod p.color_palettes.length).toNat []
  else palette0

/-- Model of `pick_combo` (src/streamlit_app.py:228-240). Python raises
`IndexError` at `palette[0]` when the selected palette is empty, modeled
as `none`; `prefs.get("contrast", "Medium")` is `pr.contrast` here (a
missing key is folded into `""`, whose target range coincides with the
`"Medium"` default). -/
def pick_combo (pw : ℚ → ℚ) (pyHash : String → Prefs → Int) (p : Pattern) (pr : Prefs) :
    Option Combo :=
  let palette := selectPalette pyHash p pr
  match palette.head? with
  | none => none
  | some base =>
    let sub1 := palette.getD 1 base
    let sub2 := palette.getD 2 base
    match pick_contrasting_color pw base (palette ++ ["#FFFFFF", "#000000"]) pr.contrast with
    | none => none
    | some obi =>
      match pick_contrasting_color pw obi palette "Medium" with
      | none => none
      | some obijime => some ⟨base, sub1, sub2, obi, obijime, sub2⟩

/-- Structure of a successful `pick_combo`: the slots are the palette
head, the second and third palette entries (defaulting to the head), the
obi picked from the white/black-widened palette at the user's tier, the
obijime picked from the bare palette at tier Medium, and the obiage
equal to the third slot. -/
theorem pick_combo_spec (pw : ℚ → ℚ) (pyHash : String → Prefs → Int)
    (p : Pattern) (pr : Prefs)
    (hpal : selectPalette pyHash p pr ≠ [])
    (hval : ∀ c ∈ selectPalette pyHash p pr, hex_to_rgb c ≠ none) :
    ∃ base obi obijime,
      (selectPalette pyHash p pr).head? = some base ∧
      pick_contrasting_color pw base
        (selectPalette pyHash p pr ++ ["#FFFFFF", "#000000"]) pr.contrast = some obi ∧
      obi ∈ selectPalette pyHash p pr ++ ["#FFFFFF", "#000000"] ∧
      pick_contrasting_color pw obi (selectPalette pyHash p pr) "Medium" = some obijime ∧
      pick_combo pw pyHash p pr = some
        ⟨base, (selectPalette pyHash p pr).getD 1 base,
          (selectPalette pyHash p pr).getD 2 base, obi, obijime,
          (selectPalette pyHash p pr).getD 2 base⟩ := by
  cases hh : (selectPalette pyHash p pr).head? with
  | none => exact absurd (List.head?_eq_none_iff.mp hh) hpal
  | some base =>
    have hbasemem : base ∈ selectPalette pyHash p pr := List.mem_of_mem_head? hh
    have hvalW : ∀ c ∈ selectPalette pyHash p pr ++ ["#FFFFFF", "#000000"],
        hex_to_rgb c ≠ none := by
      intro c hc
      rcases List.mem_append.mp hc with h | h
      · exact hval c h
      · simp only [List.mem_cons, List.mem_singleton] at h
        rcases h with rfl | rfl | h
        · decide
        · decide
        · cases h
    obtain ⟨obi, hobi, hobimem, -, -⟩ := pick_spec pw base
      (selectPalette pyHash p pr ++ ["#FFFFFF", "#000000"]) pr.contrast
      (by simp) (hval base hbasemem) hvalW
    obtain ⟨obijime, hobj, -, -, -⟩ := pick_spec pw obi
      (selectPalette pyHash p pr) "Medium" hpal (hvalW obi hobimem) hval
    refine ⟨base, obi, obijime, rfl, hobi, hobimem, hobj, ?_⟩
    simp only [pick_combo, hh, hobi, hobj]

/-- C6: for every entry whose selected palette is non-empty (with
parseable colors), `pick_combo` assigns base = palette[0], accent1 =
palette[1] if present else palette[0], accent2 = palette[2] if present
else palette[0], obi = the contrast pick over the palette widened with
pure white and black at the user's tier, obijime = the contrast pick of
the obi over the bare palette with the tier forced to Medium, and
obiage = accent2. -/
theorem C6_pick_combo_slots (pw : ℚ → ℚ) (pyHash : String → Prefs → Int)
    (p : Pattern) (pr : Prefs)
    (hpal : selectPalette pyHash p pr ≠ [])
    (hval : ∀ c ∈ selectPalette pyHash p pr, hex_to_rgb c ≠ none) :
    ∃ combo, pick_combo pw pyHash p pr = some combo ∧
      (∃ base, (selectPalette pyHash p pr).head? = some base ∧
        combo.kimono_base = base ∧
        combo.kimono_accent1 = (selectPalette pyHash p pr).getD 1 base ∧
        combo.kimono_accent2 = (selectPalette pyHash p pr).getD 2 base) ∧
      pick_contrasting_color pw combo.kimono_base
        (selectPalette pyHash p pr ++ ["#FFFFFF", "#000000"]) pr.contrast
        = some combo.obi ∧
      pick_contrasting_color pw combo.obi (selectPalette pyHash p pr) "Medium"
        = some combo.obijime ∧
      combo.obiage = combo.kimono_accent2 := by
  obtain ⟨base, obi, obijime, hh, hobi, -, hobj, hcombo⟩ :=
    pick_combo_spec pw pyHash p pr hpal hval
  exact ⟨⟨base, (selectPalette pyHash p pr).getD 1 base,
      (selectPalette pyHash p pr).getD 2 base, obi, obijime,
      (selectPalette pyHash p pr).getD 2 base⟩,
    hcombo, ⟨base, hh, rfl, rfl, rfl⟩, hobi, hobj, rfl⟩

/-- Concrete entry with one non-empty palette, for witnesses. -/
def scenarioPaletteEntry : Pattern :=
  { name := "seigaiha", motifs := ["Geometric"], seasons := ["All year"],
    formality := ["Semi-formal"], mood := ["Calm"], genders := ["Unisex"],
    contrast_pref := ["Low", "Medium"],
    color_palettes := [["#0F4C81", "#E6EDF7", "#F2C75C"]], notes := "" }

/-- Witness for C6 at a concrete entry. -/
theorem C6_witness :
    ∃ combo, pick_combo (fun _ => 0) (fun _ _ => 0) scenarioPaletteEntry scenarioPrefs
        = some combo ∧ combo.obiage = combo.kimono_accent2 := by
  obtain ⟨combo, h1, -, -, -, h5⟩ := C6_pick_combo_slots (fun _ => 0) (fun _ _ => 0)
    scenarioPaletteEntry scenarioPrefs (by decide) (by decide)
  exact ⟨combo, h1, h5⟩

/-- C5 counterexample: an entry whose palettes list is `[[]]` (it has a
palette, but an empty one) does NOT receive the default fallback — the
default applies only when the palettes list itself is empty — and
`palette[0]` raises `IndexError`, modeled as `none`. This refutes the
claim that every entry without a non-empty palette gets the default
triple instead of failing. -/
theorem C5_counterexample_empty_palette :
    pick_combo (fun _ => 0) (fun _ _ => 0)
      { name := "x", motifs := [], seasons := [], formality := [], mood := [],
        genders := [], contrast_pref := [], color_palettes := [[]], notes := "" }
      scenarioPrefs = none := by
  rfl

/-- C5 amended: an entry with NO palettes at all is given the fixed
default three-color triple and `pick_combo` succeeds on it; and for
every entry, `pick_combo` succeeds whenever the SELECTED palette is
non-empty with parseable colors. (An entry whose palettes list is
non-empty but whose selected palette is empty fails instead, see the
counterexample.) -/
theorem C5_amended_pick_combo_fallback (pw : ℚ → ℚ) (pyHash : String → Prefs → Int)
    (p : Pattern) (pr : Prefs) :
    (p.color_palettes = [] →
      selectPalette pyHash p pr = ["#222222", "#dddddd", "#aaaaaa"] ∧
      ∃ combo, pick_combo pw pyHash p pr = some combo) ∧
    (selectPalette pyHash p pr ≠ [] →
      (∀ c ∈ selectPalette pyHash p pr, hex_to_rgb c ≠ none) →
      ∃ combo, pick_combo pw pyHash p pr = some combo) := by
  constructor
  · intro h0
    have hsel : selectPalette pyHash p pr = ["#222222", "#dddddd", "#aaaaaa"] := by
      simp [selectPalette, h0]
    refine ⟨hsel, ?_⟩
    obtain ⟨base, obi, obijime, -, -, -, -, hcombo⟩ := pick_combo_spec pw pyHash p pr
      (by rw [hsel]; simp) (by rw [hsel]; decide)
    exact ⟨_, hcombo⟩
  · intro hpal hval
    obtain ⟨base, obi, obijime, -, -, -, -, hcombo⟩ := pick_combo_spec pw pyHash p pr hpal hval
    exact ⟨_, hcombo⟩

/-- Witness for the amended C5 at an entry with no palettes. -/
theorem C5_amended_witness :
    selectPalette (fun _ _ => 0)
        { name := "y", motifs := [], seasons := [], formality := [], mood := [],
          genders := [], contrast_pref := [], color_palettes := [], notes := "" }
        scenarioPrefs = ["#222222", "#dddddd", "#aaaaaa"] ∧
      ∃ combo, pick_combo (fun _ => 0) (fun _ _ => 0)
        { name := "y", motifs := [], seasons := [], formality := [], mood := [],
          genders := [], contrast_pref := [], color_palettes := [], notes := "" }
        scenarioPrefs = some combo :=
  (C5_amended_pick_combo_fallback (fun _ => 0) (fun _ _ => 0)
    { name := "y", motifs := [], seasons := [], formality := [], mood := [],
      genders := [], contrast_pref := [], color_palettes := [], notes := "" }
    scenarioPrefs).1 rfl

/-! The recommender (src/streamlit_app.py:242-250). -/

/-- One result record appended by `recommend` (src/streamlit_app.py:249). -/
structure RecItem where
  pattern : String
  motifs : List String
  notes : String
  reasons : List String
  colors : Combo

/-- The scored pair sequence of `recommend` (src/streamlit_app.py:244). -/
def scoredList (catalog : List Pattern) (pr : Prefs) : List (ℚ × Pattern) :=
  catalog.map (fun p => (score_pattern p pr, p))

/-- Comparator of the descending sort: `a` comes before `b` when
`b`'s score is at most `a`'s. -/
def leScore (a b : ℚ × Pattern) : Bool :=
  decide (b.1 ≤ a.1)

/-- Python `sorted(scored, key=lambda x: x[0], reverse=True)`
(src/streamlit_app.py:244): a stable descending sort by score.
`List.mergeSort` is a stable sort, hence computes the same list as
Python's stable `sorted`. -/
def sortedScored (catalog : List Pattern) (pr : Prefs) : List (ℚ × Pattern) :=
  (scoredList catalog pr).mergeSort leScore

/-- The `top` list (src/streamlit_app.py:245): the first `k` sorted
entries, projected back to patterns. -/
def recommendTop (catalog : List Pattern) (pr : Prefs) (k : Nat) : List Pattern :=
  ((sortedScored catalog pr).take k).map (fun x => x.2)

/-- Model of `recommend` (src/streamlit_app.py:242-250), with the
process-global `PATTERNS` made an explicit `catalog` parameter and
`k : ℕ` (Python slicing `scored[:k]` equals `take k` for every
non-negative `k`). A `pick_combo` failure propagates as `none`. -/
def recommend (pw : ℚ → ℚ) (pyHash : String → Prefs → Int) (catalog : List Pattern)
    (pr : Prefs) (k : Nat) : Option (List RecItem) :=
  if catalog = [] then some []
  else
    (recommendTop catalog pr k).mapM (fun p =>
      (pick_combo pw pyHash p pr).map (fun combo =>
        ⟨p.name, p.motifs, p.notes, build_reasons p pr, combo⟩))

/-- The sort of the index-tagged scored list by score descending with
ties broken by source position: the canonical stable descending sort. -/
def sortedScoredIdx (catalog : List Pattern) (pr : Prefs) : List (Nat × (ℚ × Pattern)) :=
  ((scoredList catalog pr).enum).mergeSort (List.enumLE leScore)

theorem leScore_trans : ∀ (a b c : ℚ × Pattern),
    leScore a b = true → leScore b c = true → leScore a c = true := by
  intro a b c hab hbc
  simp only [leScore, decide_eq_true_eq] at hab hbc ⊢
  exact le_trans hbc hab

theorem leScore_total : ∀ (a b : ℚ × Pattern), (leScore a b || leScore b a) = true := by
  intro a b
  simp only [leScore, Bool.or_eq_true, decide_eq_true_eq]
  exact le_total b.1 a.1

theorem sortedScored_pairwise (catalog : List Pattern) (pr : Prefs) :
    (sortedScored catalog pr).Pairwise (fun a b => b.1 ≤ a.1) := by
  have hs := List.sorted_mergeSort leScore_trans leScore_total (scoredList catalog pr)
  exact hs.imp (fun h => by simpa [leScore] using h)

theorem mem_sortedScored_score {catalog : List Pattern} {pr : Prefs} {x : ℚ × Pattern}
    (hx : x ∈ sortedScored catalog pr) : x.1 = score_pattern x.2 pr := by
  have hx' : x ∈ scoredList catalog pr := List.mem_mergeSort.mp hx
  obtain ⟨p, -, hp⟩ := List.mem_map.mp hx'
  rw [← hp]

theorem mapM_option_length {α β : Type*} (f : α → Option β) :
    ∀ {l : List α} {res : List β}, l.mapM f = some res → res.length = l.length
  | [], res, h => by
    simp only [List.mapM_nil, Option.pure_def, Option.some.injEq] at h
    rw [← h]
    rfl
  | a :: l, res, h => by
    rw [List.mapM_cons] at h
    cases hf : f a with
    | none => rw [hf] at h; simp at h
    | some b =>
      rw [hf] at h
      cases hl : l.mapM f with
      | none => rw [hl] at h; simp at h
      | some bs =>
        rw [hl] at h
        have h' : b :: bs = res := by simpa using h
        rw [← h']
        simp [mapM_option_length f hl]

theorem sortedScoredIdx_pairwise (catalog : List Pattern) (pr : Prefs) :
    (sortedScoredIdx catalog pr).Pairwise
      (fun x y => y.2.1 < x.2.1 ∨ (x.2.1 = y.2.1 ∧ x.1 < y.1)) := by
  have hs := List.sorted_mergeSort (List.enumLE_trans leScore_trans)
    (List.enumLE_total leScore_total) ((scoredList catalog pr).enum)
  have hperm : (sortedScoredIdx catalog pr).Perm ((scoredList catalog pr).enum) :=
    List.mergeSort_perm _ _
  have h1 : (((scoredList catalog pr).enum).map Prod.fst).Nodup := by
    rw [List.enum_map_fst]
    exact List.nodup_range _
  have h2 : ((sortedScoredIdx catalog pr).map Prod.fst).Nodup :=
    (List.Perm.nodup_iff (List.Perm.map Prod.fst hperm)).mpr h1
  have h2' : ((sortedScoredIdx catalog pr).map Prod.fst).Pairwise (fun a b => a ≠ b) := h2
  have hnd : (sortedScoredIdx catalog pr).Pairwise (fun x y => x.1 ≠ y.1) :=
    List.pairwise_map.mp h2'
  have hcomb := List.Pairwise.and hs hnd
  refine hcomb.imp ?_
  intro a b hab
  obtain ⟨he, hne⟩ := hab
  simp only [List.enumLE, leScore] at he
  split at he
  · rename_i hba
    split at he
    · rename_i hab'
      simp only [decide_eq_true_eq] at hba hab' he
      right
      exact ⟨le_antisymm hab' hba, lt_of_le_of_ne he hne⟩
    · rename_i hab'
      simp only [decide_eq_true_eq] at hba hab'
      left
      exact lt_of_le_not_le hba hab'
  · cases he

theorem sortedScoredIdx_source (catalog : List Pattern) (pr : Prefs) :
    ∀ x ∈ sortedScoredIdx catalog pr, (scoredList catalog pr)[x.1]? = some x.2 := by
  intro x hx
  have hx' : x ∈ ((scoredList catalog pr).enum) := List.mem_mergeSort.mp hx
  obtain ⟨i, v⟩ := x
  obtain ⟨-, hlt, hv⟩ := List.mem_enumFrom hx'
  simp only [Nat.zero_add] at hlt
  simp only [Nat.sub_zero] at hv
  rw [List.getElem?_eq_getElem hlt]
  rw [hv]

/-- C3: the recommender returns an empty result on an empty catalog;
its `top` selection has exactly `min k |catalog|` entries in
non-increasing score order; the sort is the stable descending sort (it
equals the sort of the index-tagged list ordered by score descending
with ties broken by ascending source position); and a successful
`recommend` returns exactly `min k |catalog|` result records. -/
theorem C3_recommend_empty_topk_sorted_stable (pw : ℚ → ℚ)
    (pyHash : String → Prefs → Int) (catalog : List Pattern) (pr : Prefs) (k : Nat) :
    recommend pw pyHash [] pr k = some [] ∧
    (recommendTop catalog pr k).length = min k catalog.length ∧
    (recommendTop catalog pr k).Pairwise
      (fun a b => score_pattern b pr ≤ score_pattern a pr) ∧
    sortedScored catalog pr = (sortedScoredIdx catalog pr).map (fun x => x.2) ∧
    (sortedScoredIdx catalog pr).Pairwise
      (fun x y => y.2.1 < x.2.1 ∨ (x.2.1 = y.2.1 ∧ x.1 < y.1)) ∧
    (∀ x ∈ sortedScoredIdx catalog pr, (scoredList catalog pr)[x.1]? = some x.2) ∧
    (∀ res, recommend pw pyHash catalog pr k = some res →
      res.length = min k catalog.length) := by
  refine ⟨rfl, ?_, ?_, ?_, sortedScoredIdx_pairwise catalog pr,
    sortedScoredIdx_source catalog pr, ?_⟩
  · simp [recommendTop, sortedScored, scoredList]
  · have hsorted := sortedScored_pairwise catalog pr
    have htake : ((sortedScored catalog pr).take k).Pairwise (fun a b => b.1 ≤ a.1) :=
      List.Pairwise.sublist (List.take_sublist k _) hsorted
    rw [recommendTop, List.pairwise_map]
    refine htake.imp_of_mem ?_
    intro a b ha hb hab
    have ha' := mem_sortedScored_score (List.take_subset k _ ha)
    have hb' := mem_sortedScored_score (List.take_subset k _ hb)
    rw [← ha', ← hb']
    exact hab
  · exact List.mergeSort_enum.symm
  · intro res hres
    rw [recommend] at hres
    by_cases hcat : catalog = []
    · rw [if_pos hcat] at hres
      cases hres
      subst hcat
      simp
    · rw [if_neg hcat] at hres
      have := mapM_option_length _ hres
      rw [this]
      simp [recommendTop, sortedScored, scoredList]

/-- Witness for C3 at a concrete catalog. -/
theorem C3_witness :
    recommend (fun _ => 0) (fun _ _ => 0) [] scenarioPrefs 3 = some [] ∧
      (recommendTop [scenarioPaletteEntry] scenarioPrefs 3).length
        = min 3 ([scenarioPaletteEntry] : List Pattern).length := by
  obtain ⟨h1, h2, -, -, -, -, -⟩ := C3_recommend_empty_topk_sorted_stable (fun _ => 0)
    (fun _ _ => 0) [scenarioPaletteEntry] scenarioPrefs 3
  exact ⟨h1, h2⟩

/-- Witness for C10 at the case-variant pair of colors. -/
theorem C10_witness :
    contrast (fun _ => 0) "#FFFFFF" "#ffffff" = some 1 ∧
      pick_contrasting_color (fun _ => 0) "#FFFFFF" ["#ffffff"] "Low" = some "#ffffff" := by
  obtain ⟨h1, -, -, h4⟩ := C10_case_sensitive_identity (fun _ => 0)
  exact ⟨h1 "#FFFFFF" "#ffffff" (by decide) (by decide), h4⟩

end Wagara
